import Mathlib

/-!
Verification of the libseekdb fetch-and-stage scripts
(`packages/bindings/scripts/fetch_libseekdb.py`,
`libseekdb_url_config.py`, and the two per-platform wrapper scripts).

The scripts are shallowly embedded: a filesystem is modelled as an
association list from paths (component lists) to node kinds, Python
path strings are component lists, the external effects (urlretrieve,
ZipFile, per-entry extraction, codesign exit codes) are supplied by an
oracle record, and each script-level function returns the final
filesystem, the list of performed external actions, and the exception
it raised, if any (mirroring Python: side effects performed before an
exception persist).
-/

/-- Kind of a filesystem node: a regular file or a directory. -/
inductive NodeKind
  | file
  | dir
deriving DecidableEq, Repr

/-- A path, as its list of components (`os.path.join` appends a component). -/
abbrev FsPath := List String

/-- A filesystem state: the set of existing paths with their node kinds,
as an association list (earliest entry wins on lookup). -/
abbrev FS := List (FsPath × NodeKind)

/-- Node kind stored at a path, if the path exists (`None` = no such path). -/
def fsLookup : FS → FsPath → Option NodeKind
  | [], _ => none
  | e :: rest, p => if e.1 = p then some e.2 else fsLookup rest p

/-- `os.path.exists`. -/
def pathExists (fs : FS) (p : FsPath) : Bool :=
  (fsLookup fs p).isSome

/-- `os.path.isdir`. -/
def isDir (fs : FS) (p : FsPath) : Bool :=
  match fsLookup fs p with
  | some NodeKind.dir => true
  | _ => false

/-- `os.path.isfile`. -/
def isFile (fs : FS) (p : FsPath) : Bool :=
  match fsLookup fs p with
  | some NodeKind.file => true
  | _ => false

/-- `os.listdir`: names of the immediate children of `p`. -/
def listDir (fs : FS) (p : FsPath) : List String :=
  fs.filterMap (fun e => if e.1 ≠ [] ∧ e.1.dropLast = p then e.1.getLast? else none)

/-- `shutil.rmtree`: remove `p` and everything below it. -/
def rmtree (fs : FS) (p : FsPath) : FS :=
  fs.filter (fun e => !(p.isPrefixOf e.1))

/-- All prefixes of a path, from `[]` up to the path itself. -/
def prefixesOf (p : FsPath) : List FsPath :=
  (List.range (p.length + 1)).map (fun i => p.take i)

/-- The new directory entries `os.makedirs p` adds: every nonempty prefix of
`p` that does not already exist, created as a directory. -/
def mkdirNew (fs : FS) (p : FsPath) : FS :=
  (((prefixesOf p).filter (fun q => !(q.isEmpty) && !(pathExists fs q))).map
    (fun q => (q, NodeKind.dir))) ++ fs

/-- Python exceptions relevant to these scripts. -/
inductive PyErr
  | typeError (msg : String)
  | notADirectoryError (p : FsPath)
  | fileExistsError (p : FsPath)
  | urlError (msg : String)
  | badZipFile (msg : String)
  | oSError (msg : String)
  | calledProcessError (code : Nat)
deriving DecidableEq, Repr

/-- `os.makedirs`: fails when a regular file occupies any prefix of `p`
(NotADirectoryError) or, without `exist_ok`, when `p` already exists. -/
def mkdirpE (fs : FS) (p : FsPath) (existOk : Bool) : Except PyErr FS :=
  if (prefixesOf p).any (fun q => fsLookup fs q == some NodeKind.file) then
    Except.error (PyErr.notADirectoryError p)
  else if !existOk && pathExists fs p then
    Except.error (PyErr.fileExistsError p)
  else
    Except.ok (mkdirNew fs p)

/-- Writing one node (creation or overwrite) at a path. -/
def setNode (fs : FS) (p : FsPath) (k : NodeKind) : FS :=
  (p, k) :: fs

/-- The path a source entry is copied to by
`shutil.copytree src dst`, when the entry lies under `src`. -/
def copyTarget (src dst : FsPath) (q : FsPath) : Option FsPath :=
  if src.isPrefixOf q then some (dst ++ q.drop src.length) else none

/-- `shutil.copytree src dst dirs_exist_ok=True`: every node under `src`
also appears at the corresponding path under `dst`, overwriting what was
there; nodes under `dst` with no counterpart under `src` survive. -/
def copytreeFs (fs : FS) (src dst : FsPath) : FS :=
  (fs.filterMap (fun e =>
    match copyTarget src dst e.1 with
    | some t => some (t, e.2)
    | none => none)) ++ fs

-- ------------------------------------------------------------------
-- Embedded source: fetch_libseekdb.py, libseekdb_url_config.py and the
-- per-platform wrapper scripts
-- ------------------------------------------------------------------

/-- A Python value passed as `local_zip_name`: either a string or (as the
linux_x64 wrapper does) a list of strings. -/
inductive PyVal
  | str (s : String)
  | strList (l : List String)
deriving DecidableEq, Repr

/-- External actions a run performs, in order. -/
inductive PyAct
  | rmtreeA (p : FsPath)
  | makedirsA (p : FsPath)
  | downloadA (url : String) (dest : FsPath)
  | extractA (name : String) (dest : FsPath)
  | copytreeA (src dst : FsPath)
  | codesignA (p : FsPath)
deriving DecidableEq, Repr

/-- Outcomes of the external operations, supplied by the environment:
the result of `urllib.request.urlretrieve`, of opening the zip and
reading its name list, the per-entry extraction failures, and the exit
code of each `codesign` invocation. -/
structure Oracles where
  dl : Except PyErr Unit
  zipOpen : Except PyErr (List String)
  extractErr : Nat → Option PyErr
  codesignExit : FsPath → Nat

/-- Result of running a script function: final filesystem, the external
actions performed (in order), and the exception raised, if any. -/
structure PyResult where
  fs : FS
  trace : List PyAct
  err : Option PyErr
deriving DecidableEq, Repr

/-- Message of the `TypeError` `os.path.join` raises on a list argument. -/
def joinTypeErrMsg : String :=
  "join argument must be str, bytes or os.PathLike object, not list"

/-- Message of the `TypeError` raised when `fetch_libseekdb` is called
with two positional arguments instead of three. -/
def missingArgMsg : String :=
  "fetch_libseekdb missing 1 required positional argument local_zip_name"

/-- `os.path.join(d, v)`: appends a string component; raises `TypeError`
on a list argument. -/
def pyJoin (d : FsPath) (v : PyVal) : Except PyErr FsPath :=
  match v with
  | PyVal.str s => Except.ok (d ++ [s])
  | PyVal.strList _ => Except.error (PyErr.typeError joinTypeErrMsg)

/-- `_ensure_output_dir_valid` (fetch_libseekdb.py lines 26-41): remove
`output_dir` if it exists as a directory but is empty or does not contain
the native library. -/
def ensure_output_dir_valid (fs : FS) (output_dir : FsPath) : FS :=
  if !(pathExists fs output_dir) || !(isDir fs output_dir) then fs
  else if (listDir fs output_dir).isEmpty then rmtree fs output_dir
  else if !(isFile fs (output_dir ++ ["libseekdb.dylib"]) ||
            isFile fs (output_dir ++ ["libseekdb.so"])) then rmtree fs output_dir
  else fs

/-- `_need_fetch` (fetch_libseekdb.py lines 108-118): true if `output_dir`
is missing, not a directory, empty, or does not contain the native lib. -/
def need_fetch (fs : FS) (output_dir : FsPath) : Bool :=
  if !(pathExists fs output_dir) || !(isDir fs output_dir) then true
  else if (listDir fs output_dir).isEmpty then true
  else !(isFile fs (output_dir ++ ["libseekdb.dylib"]) ||
         isFile fs (output_dir ++ ["libseekdb.so"]))

/-- Path components of a zip entry name (slash-separated). -/
def zipEntryComps (name : String) : List String :=
  (name.splitOn "/").filter (fun c => c ≠ "")

/-- Filesystem effect of `zf.extract(name, output_dir)`: create the
entry (and its parent directories) under `output_dir`; an archive name
ending in a slash is a directory entry. -/
def extractOne (fs : FS) (output_dir : FsPath) (name : String) : FS :=
  let comps := zipEntryComps name
  if comps.isEmpty then fs
  else if name.endsWith "/" then mkdirNew fs (output_dir ++ comps)
  else setNode (mkdirNew fs (output_dir ++ comps.dropLast)) (output_dir ++ comps) NodeKind.file

/-- The extraction loop of `fetch_libseekdb` (lines 63-66): extract the
archive entries in name-list order, stopping at the first failure; `i`
is the index used to consult the extraction oracle. -/
def extractAll (output_dir : FsPath) (o : Oracles) (fs : FS) :
    List String → Nat → FS × List PyAct × Option PyErr
  | [], _ => (fs, [], none)
  | n :: rest, i =>
    match o.extractErr i with
    | some e => (fs, [], some e)
    | none =>
      let r := extractAll output_dir o (extractOne fs output_dir n) rest (i + 1)
      (r.1, PyAct.extractA n output_dir :: r.2.1, r.2.2)

/-- `copy_libs_to_package` (fetch_libseekdb.py lines 75-84): ensure
`pkgs/js-bindings` exists, then copy `libseekdb/libs` onto
`pkgs/js-bindings/libs` if the source is a directory. -/
def copy_libs_to_package (fs : FS) (module_root : FsPath) :
    FS × List PyAct × Option PyErr :=
  match mkdirpE fs (module_root ++ ["pkgs", "js-bindings"]) true with
  | Except.error e => (fs, [], some e)
  | Except.ok fs1 =>
    let srcLibs := module_root ++ ["libseekdb", "libs"]
    let dstLibs := module_root ++ ["pkgs", "js-bindings", "libs"]
    if isDir fs1 srcLibs then
      (copytreeFs fs1 srcLibs dstLibs, [PyAct.copytreeA srcLibs dstLibs], none)
    else (fs1, [], none)

/-- The part of `fetch_libseekdb` after the directory-validation and
makedirs steps (lines 53-72): join the local zip path, download, open
the archive, extract all entries, and copy the libs subtree into the
package. -/
def fetchAfterMkdir (zip_url : String) (output_dir : FsPath) (local_zip_name : PyVal)
    (fs : FS) (tr : List PyAct) (o : Oracles) : PyResult :=
  match pyJoin output_dir local_zip_name with
  | Except.error e => { fs := fs, trace := tr, err := some e }
  | Except.ok local_zip_path =>
    let tr2 := tr ++ [PyAct.downloadA zip_url local_zip_path]
    match o.dl with
    | Except.error e => { fs := fs, trace := tr2, err := some e }
    | Except.ok _ =>
      let fs3 := setNode fs local_zip_path NodeKind.file
      match o.zipOpen with
      | Except.error e => { fs := fs3, trace := tr2, err := some e }
      | Except.ok names =>
        let r := extractAll output_dir o fs3 names 0
        match r.2.2 with
        | some e => { fs := r.1, trace := tr2 ++ r.2.1, err := some e }
        | none =>
          let c := copy_libs_to_package r.1 output_dir.dropLast
          { fs := c.1, trace := tr2 ++ r.2.1 ++ c.2.1, err := c.2.2 }

/-- `fetch_libseekdb` (fetch_libseekdb.py lines 44-72): validate the
output directory, create it if missing, then download and extract. -/
def fetch_libseekdb (zip_url : String) (output_dir : FsPath) (local_zip_name : PyVal)
    (fs : FS) (o : Oracles) : PyResult :=
  let fs1 := ensure_output_dir_valid fs output_dir
  let tr1 : List PyAct :=
    if isDir fs output_dir && need_fetch fs output_dir then [PyAct.rmtreeA output_dir]
    else []
  if pathExists fs1 output_dir then fetchAfterMkdir zip_url output_dir local_zip_name fs1 tr1 o
  else
    match mkdirpE fs1 output_dir false with
    | Except.error e => { fs := fs1, trace := tr1, err := some e }
    | Except.ok fs2 =>
      fetchAfterMkdir zip_url output_dir local_zip_name fs2 (tr1 ++ [PyAct.makedirsA output_dir]) o

/-- `subprocess.run([...], check := c)` with exit code `code`: raises
CalledProcessError only when `check` is set and the code is nonzero. -/
def subprocessRun (check : Bool) (code : Nat) : Except PyErr Unit :=
  if check && code != 0 then Except.error (PyErr.calledProcessError code) else Except.ok ()

/-- The signing loop of `_sign_dylibs_macos` (lines 99-105): ad-hoc sign
every `.dylib` in the libs directory with `check=False`. -/
def signLoop (o : Oracles) (libsDir : FsPath) : List String → Except PyErr (List PyAct)
  | [] => Except.ok []
  | n :: rest =>
    if n.endsWith ".dylib" then
      match subprocessRun false (o.codesignExit (libsDir ++ [n])) with
      | Except.error e => Except.error e
      | Except.ok _ =>
        match signLoop o libsDir rest with
        | Except.error e => Except.error e
        | Except.ok tr => Except.ok (PyAct.codesignA (libsDir ++ [n]) :: tr)
    else signLoop o libsDir rest

/-- `_sign_dylibs_macos` (fetch_libseekdb.py lines 87-105). `plat` stands
for `sys.platform`. Returns without doing anything unless on darwin;
each codesign call passes `check=False`. -/
def sign_dylibs_macos (plat : String) (fs : FS) (bindings_dir : FsPath) (o : Oracles) :
    Except PyErr (FS × List PyAct) :=
  if plat ≠ "darwin" then Except.ok (fs, [])
  else
    let mainDylib := bindings_dir ++ ["libseekdb.dylib"]
    let step1 : Except PyErr (List PyAct) :=
      if isFile fs mainDylib then
        match subprocessRun false (o.codesignExit mainDylib) with
        | Except.error e => Except.error e
        | Except.ok _ => Except.ok [PyAct.codesignA mainDylib]
      else Except.ok []
    match step1 with
    | Except.error e => Except.error e
    | Except.ok tr1 =>
      let libsDir := bindings_dir ++ ["libs"]
      if isDir fs libsDir then
        match signLoop o libsDir (listDir fs libsDir) with
        | Except.error e => Except.error e
        | Except.ok tr2 => Except.ok (fs, tr1 ++ tr2)
      else Except.ok (fs, tr1)

/-- `LIBSEEKDB_URL_PREFIX` from libseekdb_url_config.py. -/
def LIBSEEKDB_URL_HEAD : String :=
  "https://oceanbase-seekdb-builds.s3.ap-southeast-1.amazonaws.com/libseekdb/all_commits/347e3a1c7a1af979d4be5fc6a74a5817cf3af7b0/"

/-- `UNSUPPORTED_PLATFORMS` from libseekdb_url_config.py. -/
def UNSUPPORTED_PLATFORMS : List String := ["darwin_x64"]

/-- `get_zip_url` (libseekdb_url_config.py lines 16-18). -/
def get_zip_url (platform_zip_name : String) : String :=
  LIBSEEKDB_URL_HEAD ++ platform_zip_name

/-- `is_platform_supported` (libseekdb_url_config.py lines 21-23). -/
def is_platform_supported (platform_key : String) : Bool :=
  !(UNSUPPORTED_PLATFORMS.contains platform_key)

/-- The zip-name resolution inside `fetch_if_empty` (lines 129-139):
`machine` is lowercased, the architecture is arm64 for arm64/aarch64 and
x64 otherwise, and the name is darwin- or linux-flavoured. `system`
stands for `(uname[0] or "").lower()` as computed at lines 130-134. -/
def resolveZipName (system : String) (rawMachine : String) : String :=
  let machine := rawMachine.toLower
  let arch := if machine = "arm64" ∨ machine = "aarch64" then "arm64" else "x64"
  if system = "darwin" then
    if arch = "arm64" then "libseekdb-darwin-arm64.zip" else "libseekdb-darwin-x64.zip"
  else "libseekdb-linux-" ++ arch ++ ".zip"

/-- `fetch_if_empty` (fetch_libseekdb.py lines 121-142): skip when the
output directory passes `_need_fetch`, otherwise resolve the platform
zip name and fetch into `module_root/libseekdb` with local name
`libseekdb.zip`. -/
def fetch_if_empty (system : String) (rawMachine : String) (module_root : FsPath)
    (fs : FS) (o : Oracles) : PyResult :=
  let output_dir := module_root ++ ["libseekdb"]
  if !(need_fetch fs output_dir) then { fs := fs, trace := [], err := none }
  else
    let zip_name := resolveZipName system rawMachine
    let zip_url := get_zip_url zip_name
    fetch_libseekdb zip_url output_dir (PyVal.str "libseekdb.zip") fs o

/-- Argument lists with which the wrapper scripts call `fetch_libseekdb`:
the darwin_x64 wrapper passes two positional arguments, the others three. -/
inductive FetchArgs
  | twoArgs (zip_url : String) (output_dir : FsPath)
  | threeArgs (zip_url : String) (output_dir : FsPath) (local_zip_name : PyVal)

/-- Python call semantics for `fetch_libseekdb`: a call with only two
positional arguments raises `TypeError` before the body runs. -/
def fetch_libseekdb_call (args : FetchArgs) (fs : FS) (o : Oracles) : PyResult :=
  match args with
  | FetchArgs.threeArgs u od n => fetch_libseekdb u od n fs o
  | FetchArgs.twoArgs _ _ =>
    { fs := fs, trace := [], err := some (PyErr.typeError missingArgMsg) }

/-- Result of running a wrapper script: whether the unsupported-platform
warning was printed, and the result of the fetch call. -/
structure ScriptRun where
  warned : Bool
  result : PyResult
deriving DecidableEq, Repr

/-- Module body of fetch_libseekdb_darwin_x64.py: warn when the platform
is unsupported, then call `fetch_libseekdb(zip_url, output_dir)` with
only two positional arguments. `scriptsDir` stands for
`os.path.dirname(__file__)`. -/
def darwin_x64_main (scriptsDir : FsPath) (fs : FS) (o : Oracles) : ScriptRun :=
  let warned := !(is_platform_supported "darwin_x64")
  let zip_url := get_zip_url "libseekdb-darwin-x64.zip"
  let output_dir := scriptsDir ++ ["..", "libseekdb"]
  { warned := warned,
    result := fetch_libseekdb_call (FetchArgs.twoArgs zip_url output_dir) fs o }

/-- The `files` list fetch_libseekdb_linux_x64.py passes as its third
argument. -/
def linux_files : List String := ["seekdb.h", "libseekdb.so"]

/-- Module body of fetch_libseekdb_linux_x64.py: calls `fetch_libseekdb`
with a list of filenames as `local_zip_name`. -/
def linux_x64_main (scriptsDir : FsPath) (fs : FS) (o : Oracles) : PyResult :=
  let zip_url := "https://github.com/oceanbase/seekdb/releases/download/v1.1.0/libseekdb-linux-x64.zip"
  let output_dir := scriptsDir ++ ["..", "libseekdb"]
  fetch_libseekdb_call (FetchArgs.threeArgs zip_url output_dir (PyVal.strList linux_files)) fs o

/-- No prefix of `p` (including `p` itself) is an existing regular file:
the condition under which `os.makedirs` cannot fail on `p`. -/
def noFileOnPath (fs : FS) (p : FsPath) : Bool :=
  (prefixesOf p).all (fun q => !(fsLookup fs q == some NodeKind.file))

/-- Recognizer for download actions. -/
def isDownloadA : PyAct → Bool
  | PyAct.downloadA _ _ => true
  | _ => false

/-- Recognizer for extraction actions. -/
def isExtractA : PyAct → Bool
  | PyAct.extractA _ _ => true
  | _ => false

/-- Number of download attempts in a trace. -/
def countDownloads (tr : List PyAct) : Nat :=
  (tr.filter isDownloadA).length

/-- The extraction actions of a trace, in order. -/
def extractActions (tr : List PyAct) : List PyAct :=
  tr.filter isExtractA

-- ------------------------------------------------------------------
-- Concrete oracle instances and filesystem states used to evaluate the
-- embedding on specific inputs
-- ------------------------------------------------------------------

/-- Oracle under which every external operation succeeds and the archive
is empty. -/
def oAllOk : Oracles :=
  { dl := Except.ok (), zipOpen := Except.ok [], extractErr := fun _ => none,
    codesignExit := fun _ => 0 }

/-- Oracle whose download fails with a network error. -/
def oDlFail : Oracles :=
  { oAllOk with dl := Except.error (PyErr.urlError "connection refused") }

/-- Oracle whose zip open fails. -/
def oZipFail : Oracles :=
  { oAllOk with zipOpen := Except.error (PyErr.badZipFile "not a zip file") }

/-- Oracle with a two-entry archive and successful extraction. -/
def oTwoEntries : Oracles :=
  { oAllOk with zipOpen := Except.ok ["libseekdb.so", "libs/"] }

/-- Oracle whose archive has one entry whose extraction fails. -/
def oExtFail : Oracles :=
  { dl := Except.ok (), zipOpen := Except.ok ["libseekdb.so"],
    extractErr := fun _ => some (PyErr.oSError "disk full"),
    codesignExit := fun _ => 0 }

/-- A module root with a valid populated libseekdb directory. -/
def fsValid : FS :=
  [(["m", "libseekdb"], NodeKind.dir),
   (["m", "libseekdb", "libseekdb.so"], NodeKind.file)]

/-- A module root where a regular file occupies the libseekdb path. -/
def fsFileAtOd : FS := [(["m", "libseekdb"], NodeKind.file)]

/-- A module root whose extracted output contains a libs directory. -/
def fsWithLibs : FS :=
  [(["m", "libseekdb"], NodeKind.dir),
   (["m", "libseekdb", "libs"], NodeKind.dir),
   (["m", "libseekdb", "libs", "libfoo.dylib"], NodeKind.file)]

-- ------------------------------------------------------------------
-- Basic filesystem lemmas
-- ------------------------------------------------------------------

theorem fsLookup_append (A B : FS) (q : FsPath) :
    fsLookup (A ++ B) q =
      (match fsLookup A q with
       | some k => some k
       | none => fsLookup B q) := by
  induction A with
  | nil => simp [fsLookup]
  | cons e rest ih =>
    by_cases h : e.1 = q
    · simp [fsLookup, h]
    · simp [fsLookup, h, ih]

theorem mem_prefixesOf {p q : FsPath} : q ∈ prefixesOf p ↔ q <+: p := by
  unfold prefixesOf
  simp only [List.mem_map, List.mem_range]
  constructor
  · rintro ⟨i, _, rfl⟩
    exact List.take_prefix i p
  · intro h
    refine ⟨q.length, ?_, (List.prefix_iff_eq_take.mp h).symm⟩
    have := h.length_le
    omega

theorem rmtree_lookup_of_pref {p q : FsPath} (fs : FS) (h : p <+: q) :
    fsLookup (rmtree fs p) q = none := by
  induction fs with
  | nil => rfl
  | cons e rest ih =>
    by_cases he : e.1 = q
    · have hpe : p.isPrefixOf e.1 = true := by
        rw [he]; exact List.isPrefixOf_iff_prefix.mpr h
      simp [rmtree, hpe] at ih ⊢
      exact ih
    · by_cases hp : p.isPrefixOf e.1
      · simp [rmtree, hp] at ih ⊢
        exact ih
      · simp only [rmtree] at ih ⊢
        simp only [List.filter_cons, hp]
        simp [fsLookup, he]
        exact ih

theorem rmtree_lookup_of_not_pref {p q : FsPath} (fs : FS) (h : ¬ p <+: q) :
    fsLookup (rmtree fs p) q = fsLookup fs q := by
  induction fs with
  | nil => rfl
  | cons e rest ih =>
    by_cases hp : p.isPrefixOf e.1
    · have he : e.1 ≠ q := by
        intro hq
        exact h (List.isPrefixOf_iff_prefix.mp (hq ▸ hp))
      simp only [rmtree] at ih ⊢
      simp only [List.filter_cons, hp]
      simp only [fsLookup, he, if_neg he]
      exact ih
    · simp only [rmtree] at ih ⊢
      simp only [List.filter_cons, hp]
      by_cases he : e.1 = q
      · simp [fsLookup, he]
      · simp [fsLookup, he]
        exact ih

theorem fsLookup_dirList_of_mem {l : List FsPath} {q : FsPath} (h : q ∈ l) :
    fsLookup (l.map (fun p => (p, NodeKind.dir))) q = some NodeKind.dir := by
  induction l with
  | nil => cases h
  | cons a rest ih =>
    by_cases ha : a = q
    · simp [fsLookup, ha]
    · simp [fsLookup, ha]
      rcases List.mem_cons.mp h with h1 | h2
      · exact absurd h1.symm ha
      · exact ih h2

theorem fsLookup_dirList_of_not_mem {l : List FsPath} {q : FsPath} (h : q ∉ l) :
    fsLookup (l.map (fun p => (p, NodeKind.dir))) q = none := by
  induction l with
  | nil => rfl
  | cons a rest ih =>
    have ha : a ≠ q := fun hq => h (hq ▸ List.mem_cons_self a rest)
    simp [fsLookup, ha]
    exact ih (fun hm => h (List.mem_cons_of_mem a hm))

theorem mkdirNew_lookup_of_some {fs : FS} {q : FsPath} {k : NodeKind}
    (h : fsLookup fs q = some k) (p : FsPath) :
    fsLookup (mkdirNew fs p) q = some k := by
  unfold mkdirNew
  rw [fsLookup_append]
  have hq : q ∉ (prefixesOf p).filter (fun r => !(r.isEmpty) && !(pathExists fs r)) := by
    intro hmem
    have := List.of_mem_filter hmem
    simp only [Bool.and_eq_true, Bool.not_eq_true'] at this
    rw [pathExists, h] at this
    simp at this
  rw [fsLookup_dirList_of_not_mem hq, h]

theorem mkdirNew_lookup_self {fs : FS} {p q : FsPath}
    (h1 : q ∈ prefixesOf p) (h2 : q ≠ []) (h3 : fsLookup fs q = none) :
    fsLookup (mkdirNew fs p) q = some NodeKind.dir := by
  unfold mkdirNew
  rw [fsLookup_append]
  have hq : q ∈ (prefixesOf p).filter (fun r => !(r.isEmpty) && !(pathExists fs r)) := by
    apply List.mem_filter.mpr
    refine ⟨h1, ?_⟩
    simp only [Bool.and_eq_true, Bool.not_eq_true']
    constructor
    · simp [List.isEmpty_iff, h2]
    · simp [pathExists, h3]
  rw [fsLookup_dirList_of_mem hq]

theorem mkdirNew_lookup_of_not_mem {fs : FS} {p q : FsPath}
    (h : q ∉ prefixesOf p) :
    fsLookup (mkdirNew fs p) q = fsLookup fs q := by
  unfold mkdirNew
  rw [fsLookup_append]
  have hq : q ∉ (prefixesOf p).filter (fun r => !(r.isEmpty) && !(pathExists fs r)) :=
    fun hmem => h (List.mem_of_mem_filter hmem)
  rw [fsLookup_dirList_of_not_mem hq]

theorem copytree_lookup_of_not_under {fs : FS} {src dst q : FsPath}
    (h : ¬ dst <+: q) :
    fsLookup (copytreeFs fs src dst) q = fsLookup fs q := by
  unfold copytreeFs
  rw [fsLookup_append]
  have hnone : fsLookup (fs.filterMap (fun e =>
      match copyTarget src dst e.1 with
      | some t => some (t, e.2)
      | none => none)) q = none := by
    induction fs with
    | nil => rfl
    | cons e rest ih =>
      simp only [List.filterMap_cons]
      cases hct : copyTarget src dst e.1 with
      | none => simpa using ih
      | some t =>
        have ht : t ≠ q := by
          intro hq
          unfold copyTarget at hct
          by_cases hp : src.isPrefixOf e.1
          · simp [hp] at hct
            exact h (hq ▸ hct ▸ ⟨e.1.drop src.length, rfl⟩)
          · simp [hp] at hct
        simp only [fsLookup, ht, if_neg ht]
        simpa using ih
  rw [hnone]

theorem copytree_lookup_target {fs : FS} {src dst rel : FsPath} {k : NodeKind}
    (h : fsLookup fs (src ++ rel) = some k) :
    fsLookup (copytreeFs fs src dst) (dst ++ rel) = some k := by
  unfold copytreeFs
  rw [fsLookup_append]
  have hcopied : fsLookup (fs.filterMap (fun e =>
      match copyTarget src dst e.1 with
      | some t => some (t, e.2)
      | none => none)) (dst ++ rel) = some k := by
    induction fs with
    | nil => simp [fsLookup] at h
    | cons e rest ih =>
      by_cases he : e.1 = src ++ rel
      · have hk : e.2 = k := by
          simp [fsLookup, he] at h
          exact h
        have hct : copyTarget src dst e.1 = some (dst ++ rel) := by
          unfold copyTarget
          have hp : src.isPrefixOf e.1 = true := by
            rw [he]
            exact List.isPrefixOf_iff_prefix.mpr ⟨rel, rfl⟩
          rw [if_pos hp, he, List.drop_left]
        simp only [List.filterMap_cons, hct]
        simp [fsLookup, hk]
      · have hrest : fsLookup rest (src ++ rel) = some k := by
          simpa [fsLookup, he] using h
        simp only [List.filterMap_cons]
        cases hct : copyTarget src dst e.1 with
        | none => exact ih hrest
        | some t =>
          have ht : t ≠ dst ++ rel := by
            intro hq
            unfold copyTarget at hct
            by_cases hp : src.isPrefixOf e.1
            · simp only [if_pos hp] at hct
              have hpre : src <+: e.1 := List.isPrefixOf_iff_prefix.mp hp
              obtain ⟨t2, ht2⟩ := hpre
              have hdrop : e.1.drop src.length = rel := by
                have hmix := hct
                rw [hq] at hmix
                have happ : dst ++ e.1.drop src.length = dst ++ rel :=
                  Option.some.inj hmix
                exact List.append_cancel_left happ
              have ht2d : t2 = rel := by
                have hd : (src ++ t2).drop src.length = rel := by
                  rw [ht2]; exact hdrop
                rwa [List.drop_left] at hd
              exact he (by rw [← ht2, ht2d])
            · simp [hp] at hct
          simp only [fsLookup, if_neg ht]
          exact ih hrest
  rw [hcopied]

-- ------------------------------------------------------------------
-- Lemmas about the embedded script functions
-- ------------------------------------------------------------------

theorem isDir_iff_lookup {fs : FS} {p : FsPath} :
    isDir fs p = true ↔ fsLookup fs p = some NodeKind.dir := by
  unfold isDir
  cases h : fsLookup fs p with
  | none => simp
  | some k => cases k <;> simp

theorem isFile_iff_lookup {fs : FS} {p : FsPath} :
    isFile fs p = true ↔ fsLookup fs p = some NodeKind.file := by
  unfold isFile
  cases h : fsLookup fs p with
  | none => simp
  | some k => cases k <;> simp

theorem pathExists_of_isDir {fs : FS} {p : FsPath} (h : isDir fs p = true) :
    pathExists fs p = true := by
  rw [pathExists, isDir_iff_lookup.mp h]
  rfl

theorem ensure_eq_cases (fs : FS) (d : FsPath) :
    ensure_output_dir_valid fs d =
      (if isDir fs d && need_fetch fs d then rmtree fs d else fs) := by
  unfold ensure_output_dir_valid need_fetch
  cases hd : isDir fs d with
  | false => simp [hd]
  | true =>
    have hex : pathExists fs d = true := pathExists_of_isDir hd
    cases he : (listDir fs d).isEmpty with
    | true => simp [hd, hex, he]
    | false =>
      cases hl : (isFile fs (d ++ ["libseekdb.dylib"]) ||
          isFile fs (d ++ ["libseekdb.so"])) with
      | true => simp [hd, hex, he, hl]
      | false => simp [hd, hex, he, hl]

theorem need_fetch_false_iff (fs : FS) (d : FsPath) :
    need_fetch fs d = false ↔
      (isDir fs d = true ∧ (listDir fs d).isEmpty = false ∧
        (isFile fs (d ++ ["libseekdb.dylib"]) = true ∨
         isFile fs (d ++ ["libseekdb.so"]) = true)) := by
  unfold need_fetch
  cases hd : isDir fs d with
  | false => simp [hd]
  | true =>
    have hex : pathExists fs d = true := pathExists_of_isDir hd
    simp only [hd, hex, Bool.not_true, Bool.or_self, Bool.false_or, true_and]
    by_cases he : (listDir fs d).isEmpty
    · simp [he]
    · simp only [he, Bool.false_eq_true, if_false]
      cases h1 : isFile fs (d ++ ["libseekdb.dylib"]) <;>
        cases h2 : isFile fs (d ++ ["libseekdb.so"]) <;> simp [h1, h2]

theorem subprocessRun_false (code : Nat) : subprocessRun false code = Except.ok () := by
  simp [subprocessRun]

theorem signLoop_ok (o : Oracles) (libsDir : FsPath) (l : List String) :
    ∃ tr, signLoop o libsDir l = Except.ok tr := by
  induction l with
  | nil => exact ⟨[], rfl⟩
  | cons n rest ih =>
    obtain ⟨tr, htr⟩ := ih
    by_cases hn : n.endsWith ".dylib"
    · refine ⟨PyAct.codesignA (libsDir ++ [n]) :: tr, ?_⟩
      simp [signLoop, hn, subprocessRun_false, htr]
    · refine ⟨tr, ?_⟩
      simp [signLoop, hn, htr]

theorem extractAll_all_ok {o : Oracles} (od : FsPath)
    (hok : ∀ i, o.extractErr i = none) :
    ∀ (names : List String) (i : Nat) (fs : FS),
      (extractAll od o fs names i).2.1 = names.map (fun n => PyAct.extractA n od) ∧
      (extractAll od o fs names i).2.2 = none := by
  intro names
  induction names with
  | nil => intro i fs; simp [extractAll]
  | cons n rest ih =>
    intro i fs
    obtain ⟨h1, h2⟩ := ih (i + 1) (extractOne fs od n)
    simp [extractAll, hok i, h1, h2]

theorem extractAll_first_err {o : Oracles} (od : FsPath) {e : PyErr} :
    ∀ (names : List String) (i k : Nat) (fs : FS),
      k < names.length →
      (∀ j, j < k → o.extractErr (i + j) = none) →
      o.extractErr (i + k) = some e →
      (extractAll od o fs names i).2.2 = some e := by
  intro names
  induction names with
  | nil => intro i k fs hk; simp at hk
  | cons n rest ih =>
    intro i k fs hk hnone hsome
    cases k with
    | zero =>
      simp at hsome
      simp [extractAll, hsome]
    | succ k2 =>
      have h0 : o.extractErr i = none := by
        have := hnone 0 (Nat.succ_pos k2)
        simpa using this
      have hrec := ih (i + 1) k2 (extractOne fs od n)
        (by simpa [Nat.succ_lt_succ_iff] using hk)
        (fun j hj => by
          have := hnone (j + 1) (Nat.succ_lt_succ hj)
          simpa [Nat.add_assoc, Nat.add_comm 1 j] using this)
        (by simpa [Nat.add_assoc, Nat.add_comm 1 k2] using hsome)
      simp [extractAll, h0, hrec]

theorem extractAll_no_download {o : Oracles} (od : FsPath) :
    ∀ (names : List String) (i : Nat) (fs : FS),
      countDownloads (extractAll od o fs names i).2.1 = 0 := by
  intro names
  induction names with
  | nil => intro i fs; simp [extractAll, countDownloads]
  | cons n rest ih =>
    intro i fs
    cases he : o.extractErr i with
    | some e => simp [extractAll, he, countDownloads]
    | none =>
      have := ih (i + 1) (extractOne fs od n)
      simp [extractAll, he, countDownloads, List.filter_cons, isDownloadA] at this ⊢
      exact this

theorem extractOne_preserves {fs : FS} {od : FsPath} {k : NodeKind}
    (h : fsLookup fs od = some k) (n : String) :
    fsLookup (extractOne fs od n) od = some k := by
  unfold extractOne
  by_cases hc : (zipEntryComps n).isEmpty
  · simp [hc, h]
  · simp only [hc, Bool.false_eq_true, if_false]
    by_cases hs : n.endsWith "/"
    · simp only [hs, if_true]
      exact mkdirNew_lookup_of_some h _
    · simp only [hs, Bool.false_eq_true, if_false, setNode]
      have hlen : zipEntryComps n ≠ [] := by
        simpa [List.isEmpty_iff] using hc
      have hne : od ++ zipEntryComps n ≠ od := by
        intro hq
        have hq2 := congrArg List.length hq
        simp [List.length_append] at hq2
        exact hlen hq2
      simp only [fsLookup, if_neg hne]
      exact mkdirNew_lookup_of_some h _

theorem noFileOnPath_iff {fs : FS} {p : FsPath} :
    noFileOnPath fs p = true ↔
      ∀ q, q <+: p → fsLookup fs q ≠ some NodeKind.file := by
  unfold noFileOnPath
  rw [List.all_eq_true]
  constructor
  · intro h q hq
    have := h q (mem_prefixesOf.mpr hq)
    simpa using this
  · intro h q hq
    have := h q (mem_prefixesOf.mp hq)
    simpa using this

theorem mkdirpE_any_false {fs : FS} {p : FsPath} (h : noFileOnPath fs p = true) :
    ((prefixesOf p).any (fun q => fsLookup fs q == some NodeKind.file)) = false := by
  rw [List.any_eq_false]
  intro q hq
  have := noFileOnPath_iff.mp h q (mem_prefixesOf.mp hq)
  simpa using this

theorem mkdirpE_ok_noExist {fs : FS} {p : FsPath}
    (h : noFileOnPath fs p = true) (hne : pathExists fs p = false) :
    mkdirpE fs p false = Except.ok (mkdirNew fs p) := by
  unfold mkdirpE
  rw [mkdirpE_any_false h]
  simp [hne]

theorem mkdirpE_ok_existOk {fs : FS} {p : FsPath}
    (h : noFileOnPath fs p = true) :
    mkdirpE fs p true = Except.ok (mkdirNew fs p) := by
  unfold mkdirpE
  rw [mkdirpE_any_false h]
  simp

theorem mkdirpE_ok_elim {fs fs1 : FS} {p : FsPath} {eo : Bool}
    (h : mkdirpE fs p eo = Except.ok fs1) : fs1 = mkdirNew fs p := by
  unfold mkdirpE at h
  split at h
  · cases h
  · split at h
    · cases h
    · exact (Except.ok.inj h).symm

theorem countDownloads_append (a b : List PyAct) :
    countDownloads (a ++ b) = countDownloads a + countDownloads b := by
  simp [countDownloads, List.filter_append]

theorem extractActions_append (a b : List PyAct) :
    extractActions (a ++ b) = extractActions a ++ extractActions b := by
  simp [extractActions, List.filter_append]

theorem copy_libs_preserves {fs : FS} {root p : FsPath} {k : NodeKind}
    (hp : fsLookup fs p = some k)
    (hnp : ¬ (root ++ ["pkgs", "js-bindings", "libs"]) <+: p) :
    fsLookup (copy_libs_to_package fs root).1 p = some k := by
  unfold copy_libs_to_package
  cases hmk : mkdirpE fs (root ++ ["pkgs", "js-bindings"]) true with
  | error e => simpa using hp
  | ok fs1 =>
    have hfs1 : fs1 = mkdirNew fs (root ++ ["pkgs", "js-bindings"]) := mkdirpE_ok_elim hmk
    have hp1 : fsLookup fs1 p = some k := by
      rw [hfs1]; exact mkdirNew_lookup_of_some hp _
    by_cases hsd : isDir fs1 (root ++ ["libseekdb", "libs"]) = true
    · simp only [hsd, if_true]
      exact (copytree_lookup_of_not_under hnp).trans hp1
    · simp only [hsd, Bool.false_eq_true, if_false]
      exact hp1

theorem copy_libs_no_download (fs : FS) (root : FsPath) :
    countDownloads (copy_libs_to_package fs root).2.1 = 0 := by
  unfold copy_libs_to_package
  cases hmk : mkdirpE fs (root ++ ["pkgs", "js-bindings"]) true with
  | error e => simp [countDownloads]
  | ok fs1 =>
    by_cases hsd : isDir fs1 (root ++ ["libseekdb", "libs"]) = true <;>
      simp [hsd, countDownloads, isDownloadA]

theorem copy_libs_no_extract (fs : FS) (root : FsPath) :
    extractActions (copy_libs_to_package fs root).2.1 = [] := by
  unfold copy_libs_to_package
  cases hmk : mkdirpE fs (root ++ ["pkgs", "js-bindings"]) true with
  | error e => simp [extractActions]
  | ok fs1 =>
    by_cases hsd : isDir fs1 (root ++ ["libseekdb", "libs"]) = true <;>
      simp [hsd, extractActions, isExtractA]

theorem extractAll_preserves {o : Oracles} {od : FsPath} {k : NodeKind} :
    ∀ (names : List String) (i : Nat) (fs : FS), fsLookup fs od = some k →
      fsLookup (extractAll od o fs names i).1 od = some k := by
  intro names
  induction names with
  | nil => intro i fs h; simpa [extractAll] using h
  | cons n rest ih =>
    intro i fs h
    cases he : o.extractErr i with
    | some e => simpa [extractAll, he] using h
    | none =>
      simp only [extractAll, he]
      exact ih (i + 1) _ (extractOne_preserves h n)

theorem fetchAfterMkdir_preserves {fs : FS} {od : FsPath} {k : NodeKind}
    (u s : String) (tr : List PyAct) (o : Oracles)
    (hk : fsLookup fs od = some k) :
    fsLookup (fetchAfterMkdir u od (PyVal.str s) fs tr o).fs od = some k ∧
    countDownloads (fetchAfterMkdir u od (PyVal.str s) fs tr o).trace =
      countDownloads tr + 1 := by
  have hdl1 : countDownloads (tr ++ [PyAct.downloadA u (od ++ [s])]) =
      countDownloads tr + 1 := by
    rw [countDownloads_append]; simp [countDownloads, isDownloadA]
  unfold fetchAfterMkdir pyJoin
  cases hdl : o.dl with
  | error e => simp [hk, hdl1]
  | ok _ =>
    have hne : od ++ [s] ≠ od := by
      intro hq
      have hq2 := congrArg List.length hq
      simp [List.length_append] at hq2
    have hk3 : fsLookup (setNode fs (od ++ [s]) NodeKind.file) od = some k := by
      simp only [setNode, fsLookup, if_neg hne]
      exact hk
    cases hz : o.zipOpen with
    | error e => simp [hk3, hdl1]
    | ok names =>
      have hpres := extractAll_preserves (o := o) names 0 _ hk3
      have hcnt := extractAll_no_download (o := o) od names 0
        (setNode fs (od ++ [s]) NodeKind.file)
      cases herr : (extractAll od o (setNode fs (od ++ [s]) NodeKind.file) names 0).2.2 with
      | some e =>
        simp only [herr]
        constructor
        · exact hpres
        · rw [countDownloads_append, hcnt, hdl1]
      | none =>
        simp only [herr]
        have hnp : ¬ (od.dropLast ++ ["pkgs", "js-bindings", "libs"]) <+: od := by
          intro hpre
          have h1 := hpre.length_le
          have h2 : od.dropLast.length = od.length - 1 := List.length_dropLast od
          simp [List.length_append] at h1
          omega
        constructor
        · exact copy_libs_preserves hpres hnp
        · rw [countDownloads_append, countDownloads_append, hcnt,
            copy_libs_no_download, hdl1]

theorem pathExists_rmtree_self (fs : FS) (od : FsPath) :
    pathExists (rmtree fs od) od = false := by
  unfold pathExists
  rw [rmtree_lookup_of_pref fs (List.prefix_refl od)]
  rfl

theorem noFileOnPath_rmtree_self {fs : FS} {od : FsPath}
    (H : noFileOnPath fs od = true) :
    noFileOnPath (rmtree fs od) od = true := by
  rw [noFileOnPath_iff] at H ⊢
  intro q hq
  by_cases hodq : od <+: q
  · rw [rmtree_lookup_of_pref fs hodq]; simp
  · rw [rmtree_lookup_of_not_pref fs hodq]; exact H q hq

theorem lookup_mkdirNew_self_dir {fs : FS} {od : FsPath}
    (hne : od ≠ []) (h : fsLookup fs od = none) :
    fsLookup (mkdirNew fs od) od = some NodeKind.dir :=
  mkdirNew_lookup_self (mem_prefixesOf.mpr (List.prefix_refl od)) hne h

theorem fetch_setup {fs : FS} {od : FsPath} (u : String) (v : PyVal) (o : Oracles)
    (H : noFileOnPath fs od = true) (hne : od ≠ []) :
    ∃ fs2 tr2,
      fetch_libseekdb u od v fs o = fetchAfterMkdir u od v fs2 tr2 o ∧
      fsLookup fs2 od = some NodeKind.dir ∧
      countDownloads tr2 = 0 ∧
      extractActions tr2 = [] ∧
      (pathExists fs od = false → PyAct.makedirsA od ∈ tr2) := by
  unfold fetch_libseekdb
  rw [ensure_eq_cases]
  cases hcond : (isDir fs od && need_fetch fs od) with
  | true =>
    simp only [if_true]
    have hex1 : pathExists (rmtree fs od) od = false := pathExists_rmtree_self fs od
    have hmk : mkdirpE (rmtree fs od) od false =
        Except.ok (mkdirNew (rmtree fs od) od) :=
      mkdirpE_ok_noExist (noFileOnPath_rmtree_self H) hex1
    rw [hex1]
    simp only [Bool.false_eq_true, if_false, hmk]
    refine ⟨mkdirNew (rmtree fs od) od,
      [PyAct.rmtreeA od] ++ [PyAct.makedirsA od], rfl, ?_, by
        simp [countDownloads, isDownloadA], by
        simp [extractActions, isExtractA], by
        intro _; simp⟩
    exact lookup_mkdirNew_self_dir hne (by
      rw [rmtree_lookup_of_pref fs (List.prefix_refl od)])
  | false =>
    simp only [Bool.false_eq_true, if_false]
    cases hod : fsLookup fs od with
    | some k =>
      cases k with
      | file =>
        exact absurd hod (noFileOnPath_iff.mp H od (List.prefix_refl od))
      | dir =>
        have hex : pathExists fs od = true := by simp [pathExists, hod]
        rw [hex]
        simp only [if_true]
        exact ⟨fs, [], rfl, hod, by simp [countDownloads], by simp [extractActions], by
          intro hfalse; simp at hfalse⟩
    | none =>
      have hex : pathExists fs od = false := by simp [pathExists, hod]
      have hmk : mkdirpE fs od false = Except.ok (mkdirNew fs od) :=
        mkdirpE_ok_noExist H hex
      rw [hex]
      simp only [Bool.false_eq_true, if_false, hmk]
      refine ⟨mkdirNew fs od, [] ++ [PyAct.makedirsA od], rfl,
        lookup_mkdirNew_self_dir hne hod, by simp [countDownloads, isDownloadA], by
        simp [extractActions, isExtractA], by intro _; simp⟩

theorem fetchAfterMkdir_strList (u : String) (od : FsPath) (xs : List String)
    (fs : FS) (tr : List PyAct) (o : Oracles) :
    fetchAfterMkdir u od (PyVal.strList xs) fs tr o =
      { fs := fs, trace := tr, err := some (PyErr.typeError joinTypeErrMsg) } := rfl

theorem fetchAfterMkdir_dl_err {o : Oracles} {e : PyErr} (hdl : o.dl = Except.error e)
    (u s : String) (od : FsPath) (fs : FS) (tr : List PyAct) :
    (fetchAfterMkdir u od (PyVal.str s) fs tr o).err = some e := by
  unfold fetchAfterMkdir pyJoin
  simp only [hdl]

theorem fetchAfterMkdir_zip_err {o : Oracles} {e : PyErr}
    (hdl : o.dl = Except.ok ()) (hz : o.zipOpen = Except.error e)
    (u s : String) (od : FsPath) (fs : FS) (tr : List PyAct) :
    (fetchAfterMkdir u od (PyVal.str s) fs tr o).err = some e := by
  unfold fetchAfterMkdir pyJoin
  simp only [hdl, hz]

theorem fetchAfterMkdir_extract_err {o : Oracles} {e : PyErr} {names : List String} {k : Nat}
    (hdl : o.dl = Except.ok ()) (hz : o.zipOpen = Except.ok names)
    (hk : k < names.length) (hnone : ∀ j, j < k → o.extractErr j = none)
    (hsome : o.extractErr k = some e)
    (u s : String) (od : FsPath) (fs : FS) (tr : List PyAct) :
    (fetchAfterMkdir u od (PyVal.str s) fs tr o).err = some e := by
  unfold fetchAfterMkdir pyJoin
  simp only [hdl, hz]
  have herr := extractAll_first_err od names 0 k (setNode fs (od ++ [s]) NodeKind.file)
    hk (fun j hj => by simpa using hnone j hj) (by simpa using hsome)
  simp only [herr]

theorem fetchAfterMkdir_ok {o : Oracles} {names : List String}
    (hdl : o.dl = Except.ok ()) (hz : o.zipOpen = Except.ok names)
    (hext : ∀ i, o.extractErr i = none)
    (u s : String) (od : FsPath) (fs : FS) (tr : List PyAct) :
    extractActions (fetchAfterMkdir u od (PyVal.str s) fs tr o).trace =
      extractActions tr ++ names.map (fun n => PyAct.extractA n od) := by
  unfold fetchAfterMkdir pyJoin
  simp only [hdl, hz]
  obtain ⟨h1, h2⟩ := extractAll_all_ok od hext names 0 (setNode fs (od ++ [s]) NodeKind.file)
  simp only [h2, h1]
  rw [extractActions_append, extractActions_append, extractActions_append,
    copy_libs_no_extract]
  have hdlempty : extractActions [PyAct.downloadA u (od ++ [s])] = [] := by
    simp [extractActions, isExtractA]
  have hmap : extractActions (names.map (fun n => PyAct.extractA n od)) =
      names.map (fun n => PyAct.extractA n od) := by
    unfold extractActions
    apply List.filter_eq_self.mpr
    intro a ha
    obtain ⟨n, hn, rfl⟩ := List.mem_map.mp ha
    rfl
  rw [hdlempty, hmap]
  simp

theorem fetchAfterMkdir_trace_super {a : PyAct} {tr : List PyAct} (h : a ∈ tr)
    (u : String) (od : FsPath) (v : PyVal) (fs : FS) (o : Oracles) :
    a ∈ (fetchAfterMkdir u od v fs tr o).trace := by
  unfold fetchAfterMkdir
  cases v with
  | strList xs => simpa [pyJoin] using h
  | str s =>
    simp only [pyJoin]
    cases o.dl with
    | error e => exact List.mem_append_left _ h
    | ok _ =>
      cases o.zipOpen with
      | error e => exact List.mem_append_left _ h
      | ok names =>
        cases h2 : (extractAll od o (setNode fs (od ++ [s]) NodeKind.file) names 0).2.2 with
        | some e =>
          simp only [h2]
          exact List.mem_append_left _ (List.mem_append_left _ h)
        | none =>
          simp only [h2]
          exact List.mem_append_left _ (List.mem_append_left _ (List.mem_append_left _ h))

theorem fetchAfterMkdir_count_le (u : String) (od : FsPath) (v : PyVal)
    (fs : FS) (tr : List PyAct) (o : Oracles) :
    countDownloads (fetchAfterMkdir u od v fs tr o).trace ≤ countDownloads tr + 1 := by
  unfold fetchAfterMkdir
  cases v with
  | strList xs => simp [pyJoin]
  | str s =>
    simp only [pyJoin]
    cases o.dl with
    | error e => simp [countDownloads_append, countDownloads, isDownloadA]
    | ok _ =>
      cases o.zipOpen with
      | error e => simp [countDownloads_append, countDownloads, isDownloadA]
      | ok names =>
        cases h2 : (extractAll od o (setNode fs (od ++ [s]) NodeKind.file) names 0).2.2 with
        | some e =>
          simp only [h2]
          rw [countDownloads_append, countDownloads_append, extractAll_no_download]
          simp [countDownloads, isDownloadA]
        | none =>
          simp only [h2]
          rw [countDownloads_append, countDownloads_append, countDownloads_append,
            extractAll_no_download, copy_libs_no_download]
          simp [countDownloads, isDownloadA]

theorem fetch_download_le_one (u : String) (od : FsPath) (v : PyVal)
    (fs : FS) (o : Oracles) :
    countDownloads (fetch_libseekdb u od v fs o).trace ≤ 1 := by
  unfold fetch_libseekdb
  have htr1 : countDownloads
      (if isDir fs od && need_fetch fs od then [PyAct.rmtreeA od] else []) = 0 := by
    by_cases hc : (isDir fs od && need_fetch fs od) = true <;>
      simp [hc, countDownloads, isDownloadA]
  by_cases hex : pathExists (ensure_output_dir_valid fs od) od = true
  · simp only [hex, if_true]
    have := fetchAfterMkdir_count_le u od v (ensure_output_dir_valid fs od)
      (if isDir fs od && need_fetch fs od then [PyAct.rmtreeA od] else []) o
    omega
  · simp only [hex]
    simp only [Bool.not_eq_true] at hex
    simp only [hex, Bool.false_eq_true, if_false]
    cases hmk : mkdirpE (ensure_output_dir_valid fs od) od false with
    | error e =>
      show countDownloads
        (if isDir fs od && need_fetch fs od then [PyAct.rmtreeA od] else []) ≤ 1
      rw [htr1]
      decide
    | ok fs2 =>
      show countDownloads (fetchAfterMkdir u od v fs2
        ((if isDir fs od && need_fetch fs od then [PyAct.rmtreeA od] else []) ++
          [PyAct.makedirsA od]) o).trace ≤ 1
      have hle := fetchAfterMkdir_count_le u od v fs2
        ((if isDir fs od && need_fetch fs od then [PyAct.rmtreeA od] else []) ++
          [PyAct.makedirsA od]) o
      have hm : countDownloads
          ((if isDir fs od && need_fetch fs od then [PyAct.rmtreeA od] else []) ++
            [PyAct.makedirsA od]) = 0 := by
        rw [countDownloads_append, htr1]
        simp [countDownloads, isDownloadA]
      omega

theorem noFileOnPath_ensure {fs : FS} {od : FsPath}
    (H : noFileOnPath fs od = true) :
    noFileOnPath (ensure_output_dir_valid fs od) od = true := by
  rw [ensure_eq_cases]
  cases hc : (isDir fs od && need_fetch fs od) with
  | true => simpa using noFileOnPath_rmtree_self H
  | false => simpa using H

theorem fetch_if_empty_eq (system rawMachine : String) (root : FsPath)
    (fs : FS) (o : Oracles) :
    fetch_if_empty system rawMachine root fs o =
      (if need_fetch fs (root ++ ["libseekdb"]) then
        fetch_libseekdb (get_zip_url (resolveZipName system rawMachine))
          (root ++ ["libseekdb"]) (PyVal.str "libseekdb.zip") fs o
      else { fs := fs, trace := [], err := none }) := by
  unfold fetch_if_empty
  cases h : need_fetch fs (root ++ ["libseekdb"]) <;> simp [h]

-- ------------------------------------------------------------------
-- Claim theorems
-- ------------------------------------------------------------------

/-- C8: after `_ensure_output_dir_valid fs d`, either `d` is not an
existing directory, or it is a directory containing libseekdb.dylib or
libseekdb.so as a regular file; an existing non-directory path at `d`
is left untouched. -/
theorem c8_ensure_postcondition (fs : FS) (d : FsPath) :
    (isDir (ensure_output_dir_valid fs d) d = false ∨
      (isDir (ensure_output_dir_valid fs d) d = true ∧
        (isFile (ensure_output_dir_valid fs d) (d ++ ["libseekdb.dylib"]) = true ∨
         isFile (ensure_output_dir_valid fs d) (d ++ ["libseekdb.so"]) = true))) ∧
    (fsLookup fs d = some NodeKind.file → ensure_output_dir_valid fs d = fs) := by
  rw [ensure_eq_cases]
  cases hc : (isDir fs d && need_fetch fs d) with
  | true =>
    simp only [if_true]
    rw [Bool.and_eq_true] at hc
    constructor
    · left
      have hnone : fsLookup (rmtree fs d) d = none :=
        rmtree_lookup_of_pref fs (List.prefix_refl d)
      simp [isDir, hnone]
    · intro hf
      have hd : isDir fs d = true := hc.1
      rw [isDir_iff_lookup, hf] at hd
      cases hd
  | false =>
    simp only [Bool.false_eq_true, if_false]
    refine ⟨?_, fun _ => trivial⟩
    cases hd : isDir fs d with
    | false => left; rfl
    | true =>
      right
      have hnf : need_fetch fs d = false := by
        cases hn : need_fetch fs d
        · rfl
        · rw [hd, hn] at hc; simp at hc
      obtain ⟨_, _, hlib⟩ := (need_fetch_false_iff fs d).mp hnf
      exact ⟨rfl, hlib⟩

/-- C8 witness: a regular file at the output path is left untouched. -/
theorem c8_witness :
    ensure_output_dir_valid fsFileAtOd ["m", "libseekdb"] = fsFileAtOd :=
  (c8_ensure_postcondition fsFileAtOd ["m", "libseekdb"]).2 (by decide)

/-- C9: `_ensure_output_dir_valid` removes `d` exactly when `d` is an
existing directory and `_need_fetch d` is true; and `_need_fetch d` is
false exactly when the cleanup leaves `d` in place as a valid directory
containing the native lib. -/
theorem c9_need_fetch_agrees_ensure (fs : FS) (d : FsPath) :
    ((pathExists fs d = true ∧ pathExists (ensure_output_dir_valid fs d) d = false) ↔
      (isDir fs d = true ∧ need_fetch fs d = true)) ∧
    (need_fetch fs d = false ↔
      (ensure_output_dir_valid fs d = fs ∧ isDir fs d = true ∧
        (isFile fs (d ++ ["libseekdb.dylib"]) = true ∨
         isFile fs (d ++ ["libseekdb.so"]) = true))) := by
  constructor
  · constructor
    · rintro ⟨hex, hnex⟩
      cases hc : (isDir fs d && need_fetch fs d) with
      | true =>
        rw [Bool.and_eq_true] at hc
        exact hc
      | false =>
        rw [ensure_eq_cases, hc] at hnex
        simp only [Bool.false_eq_true, if_false] at hnex
        rw [hex] at hnex
        cases hnex
    · rintro ⟨hd, hn⟩
      have hc : (isDir fs d && need_fetch fs d) = true := by rw [hd, hn]; rfl
      refine ⟨pathExists_of_isDir hd, ?_⟩
      rw [ensure_eq_cases, hc]
      simp only [if_true]
      exact pathExists_rmtree_self fs d
  · constructor
    · intro hnf
      obtain ⟨hd, hne, hlib⟩ := (need_fetch_false_iff fs d).mp hnf
      have hc : (isDir fs d && need_fetch fs d) = false := by rw [hnf]; simp
      refine ⟨?_, hd, hlib⟩
      rw [ensure_eq_cases, hc]
      simp
    · rintro ⟨hens, hd, hlib⟩
      cases hn : need_fetch fs d with
      | false => rfl
      | true =>
        have hc : (isDir fs d && need_fetch fs d) = true := by rw [hd, hn]; rfl
        rw [ensure_eq_cases, hc] at hens
        simp only [if_true] at hens
        have h1 : fsLookup (rmtree fs d) d = fsLookup fs d := by rw [hens]
        rw [rmtree_lookup_of_pref fs (List.prefix_refl d),
          isDir_iff_lookup.mp hd] at h1
        cases h1

/-- C3: the signing step does nothing (no action, filesystem unchanged)
unless the platform is darwin, and regardless of the codesign exit codes
it never raises. -/
theorem c3_sign_darwin_only_best_effort (plat : String) (fs : FS)
    (bd : FsPath) (o : Oracles) :
    (plat ≠ "darwin" → sign_dylibs_macos plat fs bd o = Except.ok (fs, [])) ∧
    (∃ tr, sign_dylibs_macos plat fs bd o = Except.ok (fs, tr)) := by
  constructor
  · intro h
    unfold sign_dylibs_macos
    rw [if_pos h]
  · unfold sign_dylibs_macos
    by_cases h : plat ≠ "darwin"
    · rw [if_pos h]; exact ⟨[], rfl⟩
    · rw [if_neg h]
      by_cases hf : isFile fs (bd ++ ["libseekdb.dylib"]) = true
      · simp only [hf, if_true, subprocessRun_false]
        by_cases hd : isDir fs (bd ++ ["libs"]) = true
        · simp only [hd, if_true]
          obtain ⟨tr, htr⟩ := signLoop_ok o (bd ++ ["libs"]) (listDir fs (bd ++ ["libs"]))
          rw [htr]
          exact ⟨_, rfl⟩
        · simp only [hd, Bool.false_eq_true, if_false]
          exact ⟨_, rfl⟩
      · simp only [hf, Bool.false_eq_true, if_false]
        by_cases hd : isDir fs (bd ++ ["libs"]) = true
        · simp only [hd, if_true]
          obtain ⟨tr, htr⟩ := signLoop_ok o (bd ++ ["libs"]) (listDir fs (bd ++ ["libs"]))
          rw [htr]
          exact ⟨_, rfl⟩
        · simp only [hd, Bool.false_eq_true, if_false]
          exact ⟨_, rfl⟩

/-- C3 witness: on a non-darwin platform the signing step is a no-op. -/
theorem c3_witness :
    sign_dylibs_macos "linux" fsValid ["m", "pkgs", "js-bindings"] oAllOk =
      Except.ok (fsValid, []) :=
  (c3_sign_darwin_only_best_effort "linux" fsValid ["m", "pkgs", "js-bindings"]
    oAllOk).1 (by decide)

/-- C2: `copy_libs_to_package` copies libseekdb/libs onto
pkgs/js-bindings/libs (overwriting what is there) exactly when the libs
source is a directory; otherwise nothing at or under the destination
libs path changes, though pkgs/js-bindings itself is created. The
hypothesis states that no regular file occupies the pkgs/js-bindings
path, without which os.makedirs raises before the copy decision. -/
theorem c2_copy_libs_iff (fs : FS) (root : FsPath)
    (H : noFileOnPath fs (root ++ ["pkgs", "js-bindings"]) = true) :
    (copy_libs_to_package fs root).2.2 = none ∧
    isDir (copy_libs_to_package fs root).1 (root ++ ["pkgs", "js-bindings"]) = true ∧
    ((copy_libs_to_package fs root).2.1 =
        [PyAct.copytreeA (root ++ ["libseekdb", "libs"])
          (root ++ ["pkgs", "js-bindings", "libs"])] ↔
      isDir fs (root ++ ["libseekdb", "libs"]) = true) ∧
    (isDir fs (root ++ ["libseekdb", "libs"]) = false →
      ∀ p, (root ++ ["pkgs", "js-bindings", "libs"]) <+: p →
        fsLookup (copy_libs_to_package fs root).1 p = fsLookup fs p) ∧
    (isDir fs (root ++ ["libseekdb", "libs"]) = true →
      ∀ rel k, fsLookup fs (root ++ ["libseekdb", "libs"] ++ rel) = some k →
        fsLookup (copy_libs_to_package fs root).1
          (root ++ ["pkgs", "js-bindings", "libs"] ++ rel) = some k) := by
  have hmk := mkdirpE_ok_existOk H
  have hsrc_nm : (root ++ ["libseekdb", "libs"]) ∉
      prefixesOf (root ++ ["pkgs", "js-bindings"]) := by
    intro hm
    have hpre := mem_prefixesOf.mp hm
    have heq := hpre.eq_of_length (by simp)
    have hcc := List.append_cancel_left heq
    simp at hcc
  have hsrc_eq : isDir (mkdirNew fs (root ++ ["pkgs", "js-bindings"]))
      (root ++ ["libseekdb", "libs"]) = isDir fs (root ++ ["libseekdb", "libs"]) := by
    unfold isDir
    rw [mkdirNew_lookup_of_not_mem hsrc_nm]
  have hpj : fsLookup (mkdirNew fs (root ++ ["pkgs", "js-bindings"]))
      (root ++ ["pkgs", "js-bindings"]) = some NodeKind.dir := by
    cases hq : fsLookup fs (root ++ ["pkgs", "js-bindings"]) with
    | none =>
      exact mkdirNew_lookup_self (mem_prefixesOf.mpr (List.prefix_refl _)) (by simp) hq
    | some k =>
      cases k with
      | file => exact absurd hq (noFileOnPath_iff.mp H _ (List.prefix_refl _))
      | dir => exact mkdirNew_lookup_of_some hq _
  have hchar : copy_libs_to_package fs root =
      (if isDir fs (root ++ ["libseekdb", "libs"]) then
        (copytreeFs (mkdirNew fs (root ++ ["pkgs", "js-bindings"]))
          (root ++ ["libseekdb", "libs"]) (root ++ ["pkgs", "js-bindings", "libs"]),
         [PyAct.copytreeA (root ++ ["libseekdb", "libs"])
           (root ++ ["pkgs", "js-bindings", "libs"])], none)
      else (mkdirNew fs (root ++ ["pkgs", "js-bindings"]), [], none)) := by
    unfold copy_libs_to_package
    rw [hmk]
    cases hsd : isDir fs (root ++ ["libseekdb", "libs"]) with
    | true => simp [hsrc_eq, hsd]
    | false => simp [hsrc_eq, hsd]
  rw [hchar]
  have hndp : ¬ (root ++ ["pkgs", "js-bindings", "libs"]) <+:
      (root ++ ["pkgs", "js-bindings"]) := by
    intro h
    have hl := h.length_le
    simp only [List.length_append, List.length_cons, List.length_nil] at hl
    omega
  cases hsd : isDir fs (root ++ ["libseekdb", "libs"]) with
  | true =>
    simp only [if_true]
    refine ⟨trivial, ?_, by simp, ?_, ?_⟩
    · rw [isDir_iff_lookup]
      exact (copytree_lookup_of_not_under hndp).trans hpj
    · intro hfalse
      simp at hfalse
    · intro _ rel k hk
      have hk1 : fsLookup (mkdirNew fs (root ++ ["pkgs", "js-bindings"]))
          (root ++ ["libseekdb", "libs"] ++ rel) = some k :=
        mkdirNew_lookup_of_some hk _
      exact copytree_lookup_target hk1
  | false =>
    simp only [Bool.false_eq_true, if_false]
    refine ⟨trivial, ?_, by simp, ?_, ?_⟩
    · rw [isDir_iff_lookup]
      exact hpj
    · intro _ p hp
      apply mkdirNew_lookup_of_not_mem
      intro hm
      have h1 := (mem_prefixesOf.mp hm).length_le
      have h2 := hp.length_le
      simp only [List.length_append, List.length_cons, List.length_nil] at h1 h2
      omega
    · intro hfalse
      simp at hfalse

/-- C2 witness: with a populated libs directory, the file below it is
copied to the package path. -/
theorem c2_witness :
    fsLookup (copy_libs_to_package fsWithLibs ["m"]).1
      ["m", "pkgs", "js-bindings", "libs", "libfoo.dylib"] = some NodeKind.file :=
  (c2_copy_libs_iff fsWithLibs ["m"] (by decide)).2.2.2.2 (by decide)
    ["libfoo.dylib"] NodeKind.file (by decide)

/-- C4: the download is attempted at most once per call, and every
network (urlretrieve), archive (ZipFile) or filesystem (extract) error
raised during `fetch_libseekdb` is returned to the caller unchanged.
The hypothesis rules out the one earlier failure point, a regular file
on the destination path making os.makedirs raise first. -/
theorem c4_error_propagation (u s : String) (od : FsPath) (fs : FS) (o : Oracles)
    (hne : od ≠ []) (H : noFileOnPath fs od = true) :
    countDownloads (fetch_libseekdb u od (PyVal.str s) fs o).trace ≤ 1 ∧
    (∀ e, o.dl = Except.error e →
      (fetch_libseekdb u od (PyVal.str s) fs o).err = some e) ∧
    (∀ e, o.dl = Except.ok () → o.zipOpen = Except.error e →
      (fetch_libseekdb u od (PyVal.str s) fs o).err = some e) ∧
    (∀ e names k, o.dl = Except.ok () → o.zipOpen = Except.ok names →
      k < names.length → (∀ j, j < k → o.extractErr j = none) →
      o.extractErr k = some e →
      (fetch_libseekdb u od (PyVal.str s) fs o).err = some e) := by
  obtain ⟨fs2, tr2, heq, hdir, hcnt, hextr, hmk⟩ :=
    fetch_setup u (PyVal.str s) o H hne
  refine ⟨fetch_download_le_one u od (PyVal.str s) fs o, ?_, ?_, ?_⟩
  · intro e hdl
    rw [heq]
    exact fetchAfterMkdir_dl_err hdl u s od fs2 tr2
  · intro e hdl hz
    rw [heq]
    exact fetchAfterMkdir_zip_err hdl hz u s od fs2 tr2
  · intro e names k hdl hz hk hnone hsome
    rw [heq]
    exact fetchAfterMkdir_extract_err hdl hz hk hnone hsome u s od fs2 tr2

/-- C4 witness: a failing download propagates its error unchanged. -/
theorem c4_witness :
    (fetch_libseekdb "u" ["m", "libseekdb"] (PyVal.str "libseekdb.zip") []
        oDlFail).err = some (PyErr.urlError "connection refused") :=
  (c4_error_propagation "u" "libseekdb.zip" ["m", "libseekdb"] [] oDlFail
    (by decide) (by decide)).2.1 (PyErr.urlError "connection refused") rfl

/-- C5: with a successful download and archive open, `fetch_libseekdb`
extracts exactly the entries of the archive name list, in order, into
the output directory; the output directory is a directory afterwards and
is created (makedirs) when it did not exist. -/
theorem c5_extract_all_entries (u s : String) (od : FsPath) (fs : FS) (o : Oracles)
    (names : List String)
    (hne : od ≠ []) (H : noFileOnPath fs od = true)
    (hdl : o.dl = Except.ok ()) (hz : o.zipOpen = Except.ok names)
    (hext : ∀ i, o.extractErr i = none) :
    extractActions (fetch_libseekdb u od (PyVal.str s) fs o).trace =
      names.map (fun n => PyAct.extractA n od) ∧
    isDir (fetch_libseekdb u od (PyVal.str s) fs o).fs od = true ∧
    (pathExists fs od = false →
      PyAct.makedirsA od ∈ (fetch_libseekdb u od (PyVal.str s) fs o).trace) := by
  obtain ⟨fs2, tr2, heq, hdir, hcnt, hextr, hmk⟩ :=
    fetch_setup u (PyVal.str s) o H hne
  refine ⟨?_, ?_, ?_⟩
  · rw [heq, fetchAfterMkdir_ok hdl hz hext, hextr]
    simp
  · rw [heq, isDir_iff_lookup]
    exact (fetchAfterMkdir_preserves u s tr2 o hdir).1
  · intro hpe
    rw [heq]
    exact fetchAfterMkdir_trace_super (hmk hpe) u od (PyVal.str s) fs2 o

/-- C5 witness: a two-entry archive is extracted entry by entry, in
name-list order. -/
theorem c5_witness :
    extractActions (fetch_libseekdb "u" ["m", "libseekdb"]
        (PyVal.str "libseekdb.zip") [] oTwoEntries).trace =
      [PyAct.extractA "libseekdb.so" ["m", "libseekdb"],
       PyAct.extractA "libs/" ["m", "libseekdb"]] :=
  (c5_extract_all_entries "u" "libseekdb.zip" ["m", "libseekdb"] [] oTwoEntries
    ["libseekdb.so", "libs/"] (by decide) (by decide) rfl rfl (fun _ => rfl)).1

/-- C10: a list passed as `local_zip_name` makes `fetch_libseekdb` raise
TypeError at the os.path.join step: no download is attempted and nothing
is extracted (the directory-validation step may still have run). The
hypothesis rules out the one earlier failure point, a regular file on
the destination path making os.makedirs raise first. -/
theorem c10_nonstring_zip_name_type_error (u : String) (od : FsPath)
    (xs : List String) (fs : FS) (o : Oracles)
    (H : noFileOnPath fs od = true) :
    (fetch_libseekdb u od (PyVal.strList xs) fs o).err =
      some (PyErr.typeError joinTypeErrMsg) ∧
    countDownloads (fetch_libseekdb u od (PyVal.strList xs) fs o).trace = 0 ∧
    extractActions (fetch_libseekdb u od (PyVal.strList xs) fs o).trace = [] := by
  have H1 : noFileOnPath (ensure_output_dir_valid fs od) od = true :=
    noFileOnPath_ensure H
  unfold fetch_libseekdb
  have htr1c : countDownloads
      (if isDir fs od && need_fetch fs od then [PyAct.rmtreeA od] else []) = 0 := by
    by_cases hc : (isDir fs od && need_fetch fs od) = true <;>
      simp [hc, countDownloads, isDownloadA]
  have htr1e : extractActions
      (if isDir fs od && need_fetch fs od then [PyAct.rmtreeA od] else []) = [] := by
    by_cases hc : (isDir fs od && need_fetch fs od) = true <;>
      simp [hc, extractActions, isExtractA]
  by_cases hex : pathExists (ensure_output_dir_valid fs od) od = true
  · simp only [hex, if_true, fetchAfterMkdir_strList]
    exact ⟨trivial, htr1c, htr1e⟩
  · simp only [Bool.not_eq_true] at hex
    simp only [hex, Bool.false_eq_true, if_false]
    rw [mkdirpE_ok_noExist H1 hex]
    simp only [fetchAfterMkdir_strList]
    refine ⟨trivial, ?_, ?_⟩
    · rw [countDownloads_append, htr1c]
      simp [countDownloads, isDownloadA]
    · rw [extractActions_append, htr1e]
      simp [extractActions, isExtractA]

/-- C10 witness: the linux_x64 file list triggers the TypeError with no
download attempted. -/
theorem c10_witness :
    (fetch_libseekdb "u" ["m", "libseekdb"] (PyVal.strList linux_files) []
        oAllOk).err = some (PyErr.typeError joinTypeErrMsg) :=
  (c10_nonstring_zip_name_type_error "u" ["m", "libseekdb"] linux_files []
    oAllOk (by decide)).1

/-- C1 counterexample: with a regular file at module_root/libseekdb the
skip condition fails (need_fetch is true), so the claim requires the
destination directory to be created, yet even a run whose download and
extraction succeed leaves the path a non-directory. -/
theorem c1_creates_dir_counterexample :
    need_fetch fsFileAtOd ["m", "libseekdb"] = true ∧
    isDir (fetch_if_empty "linux" "x86_64" ["m"] fsFileAtOd oAllOk).fs
      ["m", "libseekdb"] = false := by
  constructor
  · decide
  · decide

/-- C1 (amended): fetch_if_empty does nothing when the output directory
passes the validity check; otherwise it attempts exactly one download,
and creates the destination directory (after removing an invalid one)
provided no regular file occupies the destination path or a prefix of
it; an existing regular file at the destination path is left in place
(no directory is created) while the download is still attempted. -/
theorem c1_skip_or_fetch (system rawMachine : String) (root : FsPath)
    (fs : FS) (o : Oracles) :
    (need_fetch fs (root ++ ["libseekdb"]) = false →
      fetch_if_empty system rawMachine root fs o =
        { fs := fs, trace := [], err := none }) ∧
    (need_fetch fs (root ++ ["libseekdb"]) = true →
      noFileOnPath fs (root ++ ["libseekdb"]) = true →
      countDownloads (fetch_if_empty system rawMachine root fs o).trace = 1 ∧
      isDir (fetch_if_empty system rawMachine root fs o).fs
        (root ++ ["libseekdb"]) = true) ∧
    (fsLookup fs (root ++ ["libseekdb"]) = some NodeKind.file →
      countDownloads (fetch_if_empty system rawMachine root fs o).trace = 1 ∧
      fsLookup (fetch_if_empty system rawMachine root fs o).fs
        (root ++ ["libseekdb"]) = some NodeKind.file) := by
  rw [fetch_if_empty_eq]
  refine ⟨?_, ?_, ?_⟩
  · intro hn
    simp [hn]
  · intro hn H
    simp only [hn, if_true]
    obtain ⟨fs2, tr2, heq, hdir, hcnt, hextr, hmk⟩ :=
      fetch_setup (get_zip_url (resolveZipName system rawMachine))
        (PyVal.str "libseekdb.zip") o H (by simp)
    rw [heq]
    have hp := fetchAfterMkdir_preserves (get_zip_url (resolveZipName system rawMachine))
      "libseekdb.zip" tr2 o hdir
    refine ⟨?_, ?_⟩
    · rw [hp.2, hcnt]
    · rw [isDir_iff_lookup]
      exact hp.1
  · intro hf
    have hd : isDir fs (root ++ ["libseekdb"]) = false := by
      simp [isDir, hf]
    have hn : need_fetch fs (root ++ ["libseekdb"]) = true := by
      unfold need_fetch
      simp [hd]
    simp only [hn, if_true]
    unfold fetch_libseekdb
    rw [ensure_eq_cases]
    simp only [hd, Bool.false_and, Bool.false_eq_true, if_false]
    have hex : pathExists fs (root ++ ["libseekdb"]) = true := by
      simp [pathExists, hf]
    simp only [hex, if_true]
    have hp := fetchAfterMkdir_preserves (get_zip_url (resolveZipName system rawMachine))
      "libseekdb.zip" [] o hf
    exact ⟨by rw [hp.2]; rfl, hp.1⟩

/-- C1 witness: on an empty filesystem the fetch branch runs and attempts
exactly one download. -/
theorem c1_witness :
    countDownloads (fetch_if_empty "linux" "x86_64" ["m"] [] oDlFail).trace = 1 :=
  ((c1_skip_or_fetch "linux" "x86_64" ["m"] [] oDlFail).2.1 (by decide)
    (by decide)).1

/-- C6: the zip filename is resolved by the fixed (system, machine)
mapping - arm64 exactly for lowercased machine arm64/aarch64, darwin or
linux flavour by system - and the URL is the configured head
concatenated with the filename. -/
theorem c6_zip_name_mapping (system rawMachine name : String) :
    resolveZipName system rawMachine =
      (if system = "darwin" then "libseekdb-darwin-" else "libseekdb-linux-") ++
        (if rawMachine.toLower = "arm64" ∨ rawMachine.toLower = "aarch64"
         then "arm64" else "x64") ++ ".zip" ∧
    get_zip_url name = LIBSEEKDB_URL_HEAD ++ name := by
  constructor
  · unfold resolveZipName
    by_cases hm : rawMachine.toLower = "arm64" ∨ rawMachine.toLower = "aarch64" <;>
      by_cases hs : system = "darwin" <;>
        simp only [hm, hs, if_true, if_false] <;> simp [hm, hs]
  · rfl

/-- C7 (documents the code bug): `is_platform_supported` is false exactly
on the key darwin_x64; but the darwin_x64 wrapper, after printing its
warning, calls `fetch_libseekdb` with only two positional arguments, so
it raises TypeError and performs no download at all, instead of
proceeding with the download as the config comment describes. -/
theorem c7_unsupported_platform_behavior (k : String) (sd : FsPath)
    (fs : FS) (o : Oracles) :
    is_platform_supported k = (k != "darwin_x64") ∧
    (darwin_x64_main sd fs o).warned = true ∧
    (darwin_x64_main sd fs o).result.err = some (PyErr.typeError missingArgMsg) ∧
    countDownloads (darwin_x64_main sd fs o).result.trace = 0 := by
  refine ⟨?_, rfl, rfl, rfl⟩
  unfold is_platform_supported UNSUPPORTED_PLATFORMS
  cases h : k == "darwin_x64" <;> simp [List.contains, List.elem, h, bne]
